import Mathlib

/-!
Verification of the client-side analytics and filtering engine of the
DPWH contracts dashboard.

The definitions below are a shallow embedding of the TypeScript source:
  * `src/frontend/src/types/contracts.ts` (record model, `getContractorNames`)
  * `src/frontend/src/hooks/useContractsData.ts` (`useContractFilters`:
    filter stages and sort comparator)
  * `src/frontend/src/hooks/useContractsAnalytics.ts` (`useContractsAnalytics`:
    the analytics filter stages, aggregates / processedData / summaryStats)
  * `src/frontend/src/utils/contractsAnalytics.ts` (aggregations)
  * `src/frontend/src/components/features/contracts-explorer/ContractsExplorer.tsx`
    (`paginatedContracts`)
  * `src/frontend/src/components/features/contracts-explorer/ContractsAnalyticsModal.tsx`
    (`drillDownContracts`, `handleEntityClick` resolution, `paginatedData`)

JavaScript numbers are modelled as `Rat`, nullable fields as `Option`,
JS `Array.prototype.sort` (stable since ES2019) as a stable insertion sort,
and JS `Map` (insertion-ordered, unique keys) as an insertion-ordered
association list.
-/

/-- `pat` occurs as a contiguous run inside `l`. -/
def charsInfixOf (pat : List Char) : List Char → Bool
  | [] => pat.isEmpty
  | c :: rest => pat.isPrefixOf (c :: rest) || charsInfixOf pat rest

/-- JS string `a.includes(b)`: `b` occurs as a contiguous substring of `a`. -/
def jsIncludes (s pat : String) : Bool :=
  charsInfixOf pat.data s.data

/-- Model of JS `s.toLowerCase()` (character-wise lowering). -/
def jsToLower (s : String) : String :=
  String.mk (s.data.map Char.toLower)

/-- JS `a || b` on strings: the empty string is falsy. -/
def jsStrOr (s dflt : String) : String :=
  if s.isEmpty then dflt else s

/-- JS `a || b` on a nullable number (`null` and `0` are falsy). -/
def jsRatOr (v : Option Rat) (dflt : Rat) : Rat :=
  match v with
  | none => dflt
  | some x => if x = 0 then dflt else x

/-- JS truthiness of a nullable integer (`null` and `0` are falsy). -/
def jsTruthyInt : Option Int → Bool
  | none => false
  | some n => n != 0

/-- JS truthiness of a nullable natural (`null` and `0` are falsy). -/
def jsTruthyNat : Option Nat → Bool
  | none => false
  | some n => n != 0

/-- JS truthiness of a nullable string (`null` and `""` are falsy). -/
def jsTruthyStr : Option String → Bool
  | none => false
  | some s => !s.isEmpty

/-- The `Contract` record of `types/contracts.ts`: nullable fields are
`Option`, JS numbers are `Rat` (cost, accomplishment) or `Int` (year). -/
structure Contract where
  row_number : Nat
  contract_id : String
  description : String
  contractor_name_1 : String
  contractor_id_1 : String
  contractor_name_2 : String
  contractor_id_2 : String
  contractor_name_3 : String
  contractor_id_3 : String
  contractor_name_4 : String
  contractor_id_4 : String
  region : String
  implementing_office : String
  source_of_funds : String
  cost_php : Option Rat
  effectivity_date : Option String
  expiry_date : Option String
  status : String
  accomplishment_pct : Option Rat
  year : Option Int
  source_office : String
  file_source : String
  critical_errors : Option String
  errors : Option String
  warnings : Option String
  info_notes : Option String
deriving DecidableEq, Repr, Inhabited

/-- `getContractorNames` (types/contracts.ts): push each truthy
contractor-name slot, then `filter(Boolean)`. -/
def getContractorNames (contract : Contract) : List String :=
  let names : List String := []
  let names := if !contract.contractor_name_1.isEmpty then names ++ [contract.contractor_name_1] else names
  let names := if !contract.contractor_name_2.isEmpty then names ++ [contract.contractor_name_2] else names
  let names := if !contract.contractor_name_3.isEmpty then names ++ [contract.contractor_name_3] else names
  let names := if !contract.contractor_name_4.isEmpty then names ++ [contract.contractor_name_4] else names
  names.filter (fun s => !s.isEmpty)

/-- `dateRange.type` of `ContractFilters`. -/
inductive DateRangeType
  | all_time
  | yearly
  | quarterly
  | custom
deriving DecidableEq, Repr

/-- The `dateRange` member of `ContractFilters`. -/
structure DateRangeSpec where
  type : DateRangeType
  year : Option Int
  quarter : Option Nat
  startDate : Option String
  endDate : Option String
deriving DecidableEq, Repr

/-- The `valueRange` member of `ContractFilters`. -/
structure ValueRangeSpec where
  min : Option Rat
  max : Option Rat
deriving DecidableEq, Repr

/-- `ContractFilters` (types/contracts.ts). -/
structure ContractFilters where
  regions : List String
  implementing_offices : List String
  contractors : List String
  statuses : List String
  years : List Int
  source_of_funds : List String
  keywords : List String
  minCost : Option Rat
  maxCost : Option Rat
  dateRange : Option DateRangeSpec
  valueRange : Option ValueRangeSpec
deriving DecidableEq, Repr

/-- A filter spec with every dimension unconstrained. -/
def emptyFilters : ContractFilters :=
  { regions := [], implementing_offices := [], contractors := [], statuses := []
    years := [], source_of_funds := [], keywords := []
    minCost := none, maxCost := none, dateRange := none, valueRange := none }

/-- Model of the host `new Date(string)` parser, restricted to ISO
`YYYY-MM-DD` strings (the shape of `effectivity_date` in the dataset);
any other string is an Invalid Date (`none`). -/
structure JsDate where
  year : Int
  month : Nat
  day : Nat
deriving DecidableEq, Repr

/-- Split a character list on a separator character. -/
def splitOnChar (sep : Char) : List Char → List (List Char)
  | [] => [[]]
  | c :: rest =>
    let r := splitOnChar sep rest
    if c = sep then [] :: r
    else
      match r with
      | [] => [[c]]
      | g :: gs => (c :: g) :: gs

/-- Parse a non-empty all-digit character list as a natural number. -/
def digitsToNat? (l : List Char) : Option Nat :=
  if l.isEmpty then none
  else
    l.foldl
      (fun acc c =>
        match acc with
        | none => none
        | some n => if c.isDigit then some (n * 10 + (c.toNat - 48)) else none)
      (some 0)

/-- Parse an ISO `YYYY-MM-DD` string; model of `new Date(s)` followed by
the `isNaN(date.getTime())` validity check. -/
def parseJsDate (s : String) : Option JsDate :=
  match splitOnChar (Char.ofNat 45) s.data with
  | [y, m, d] =>
    match digitsToNat? y, digitsToNat? m, digitsToNat? d with
    | some yn, some mn, some dn =>
      if 1 ≤ mn ∧ mn ≤ 12 ∧ 1 ≤ dn ∧ dn ≤ 31 then some ⟨yn, mn, dn⟩ else none
    | _, _, _ => none
  | _ => none

/-- Date order used by the JS `<=` on `Date` objects. -/
def jsDateLe (a b : JsDate) : Bool :=
  if a.year ≠ b.year then a.year ≤ b.year
  else if a.month ≠ b.month then a.month ≤ b.month
  else a.day ≤ b.day

/-! ### Filter engine, table path (`useContractFilters`, useContractsData.ts lines 60-168)

Each stage mirrors one `if (filters.x.length > 0) filtered = filtered.filter(...)`
block, in source order. -/

/-- Regions stage: case-insensitive substring match of any selected region. -/
def filterStageRegions (filters : ContractFilters) (filtered : List Contract) : List Contract :=
  if 0 < filters.regions.length then
    filtered.filter fun c =>
      filters.regions.any fun filterRegion =>
        jsIncludes (jsToLower c.region) (jsToLower filterRegion)
  else filtered

/-- Implementing-offices stage: case-insensitive substring match. -/
def filterStageOffices (filters : ContractFilters) (filtered : List Contract) : List Contract :=
  if 0 < filters.implementing_offices.length then
    filtered.filter fun c =>
      filters.implementing_offices.any fun filterOffice =>
        jsIncludes (jsToLower c.implementing_office) (jsToLower filterOffice)
  else filtered

/-- Contractors stage: any selected value is a case-insensitive substring of
any of the record's contractor names. -/
def filterStageContractors (filters : ContractFilters) (filtered : List Contract) : List Contract :=
  if 0 < filters.contractors.length then
    filtered.filter fun c =>
      let contractorNames := getContractorNames c
      filters.contractors.any fun filterContractor =>
        contractorNames.any fun name =>
          jsIncludes (jsToLower name) (jsToLower filterContractor)
  else filtered

/-- Statuses stage: exact membership `filters.statuses.includes(c.status)`. -/
def filterStageStatuses (filters : ContractFilters) (filtered : List Contract) : List Contract :=
  if 0 < filters.statuses.length then
    filtered.filter fun c => filters.statuses.contains c.status
  else filtered

/-- Years stage: `c.year && filters.years.includes(c.year)` (truthy guard). -/
def filterStageYears (filters : ContractFilters) (filtered : List Contract) : List Contract :=
  if 0 < filters.years.length then
    filtered.filter fun c => jsTruthyInt c.year && (c.year.map filters.years.contains).getD false
  else filtered

/-- Source-of-funds stage: case-insensitive substring match. -/
def filterStageFunds (filters : ContractFilters) (filtered : List Contract) : List Contract :=
  if 0 < filters.source_of_funds.length then
    filtered.filter fun c =>
      filters.source_of_funds.any fun filterSource =>
        jsIncludes (jsToLower c.source_of_funds) (jsToLower filterSource)
  else filtered

/-- Searchable text of the table keyword stage:
`[c.description, c.contract_id].join(' ').toLowerCase()`. -/
def tableSearchText (c : Contract) : String :=
  jsToLower (c.description ++ " " ++ c.contract_id)

/-- Keyword stage of the table path: `filters.keywords.every(keyword =>
searchText.includes(keyword.toLowerCase()))`. -/
def filterStageKeywords (filters : ContractFilters) (filtered : List Contract) : List Contract :=
  if 0 < filters.keywords.length then
    filtered.filter fun c =>
      filters.keywords.all fun keyword => jsIncludes (tableSearchText c) (jsToLower keyword)
  else filtered

/-- minCost stage: `c.cost_php !== null && c.cost_php >= filters.minCost`. -/
def filterStageMinCost (filters : ContractFilters) (filtered : List Contract) : List Contract :=
  match filters.minCost with
  | some minCost => filtered.filter fun c => match c.cost_php with | some v => decide (minCost ≤ v) | none => false
  | none => filtered

/-- maxCost stage: `c.cost_php !== null && c.cost_php <= filters.maxCost`. -/
def filterStageMaxCost (filters : ContractFilters) (filtered : List Contract) : List Contract :=
  match filters.maxCost with
  | some maxCost => filtered.filter fun c => match c.cost_php with | some v => decide (v ≤ maxCost) | none => false
  | none => filtered

/-- valueRange stage: two nested conditional filters (min, then max). -/
def filterStageValueRange (filters : ContractFilters) (filtered : List Contract) : List Contract :=
  match filters.valueRange with
  | some vr =>
    let filtered :=
      match vr.min with
      | some mn => filtered.filter fun c => match c.cost_php with | some v => decide (mn ≤ v) | none => false
      | none => filtered
    match vr.max with
    | some mx => filtered.filter fun c => match c.cost_php with | some v => decide (v ≤ mx) | none => false
    | none => filtered
  | none => filtered

/-- The per-record date-range predicate (shared verbatim by both filter paths). -/
def dateRangePred (dr : DateRangeSpec) (c : Contract) : Bool :=
  match c.effectivity_date with
  | none => false
  | some ed =>
    match parseJsDate ed with
    | none => false
    | some contractDate =>
      if dr.type = .yearly ∧ jsTruthyInt dr.year then
        some contractDate.year == dr.year
      else if dr.type = .quarterly ∧ jsTruthyInt dr.year ∧ jsTruthyNat dr.quarter then
        (some contractDate.year == dr.year) && (some ((contractDate.month + 2) / 3) == dr.quarter)
      else if dr.type = .custom ∧ jsTruthyStr dr.startDate ∧ jsTruthyStr dr.endDate then
        match dr.startDate, dr.endDate with
        | some sd, some eds =>
          match parseJsDate sd, parseJsDate eds with
          | some startDate, some endDate =>
            jsDateLe startDate contractDate && jsDateLe contractDate endDate
          | _, _ => false
        | _, _ => false
      else true

/-- dateRange stage: applies only when a dateRange is set and not `all_time`. -/
def filterStageDateRange (filters : ContractFilters) (filtered : List Contract) : List Contract :=
  match filters.dateRange with
  | some dr => if dr.type ≠ .all_time then filtered.filter (dateRangePred dr) else filtered
  | none => filtered

/-- The filter stage of `useContractFilters` (useContractsData.ts lines 60-168):
all eleven conditional filter blocks, in source order, before sorting. -/
def applyTableFilters (filters : ContractFilters) (contracts : List Contract) : List Contract :=
  filterStageDateRange filters
    (filterStageValueRange filters
      (filterStageMaxCost filters
        (filterStageMinCost filters
          (filterStageKeywords filters
            (filterStageFunds filters
              (filterStageYears filters
                (filterStageStatuses filters
                  (filterStageContractors filters
                    (filterStageOffices filters
                      (filterStageRegions filters contracts))))))))))

/-! ### Filter engine, analytics path
(`useContractsAnalytics`, useContractsAnalytics.ts lines 48-114) -/

/-- Analytics regions stage: exact membership `filters.regions.includes(c.region)`. -/
def aFilterStageRegions (filters : ContractFilters) (filtered : List Contract) : List Contract :=
  if 0 < filters.regions.length then
    filtered.filter fun c => filters.regions.contains c.region
  else filtered

/-- Analytics implementing-offices stage: exact membership. -/
def aFilterStageOffices (filters : ContractFilters) (filtered : List Contract) : List Contract :=
  if 0 < filters.implementing_offices.length then
    filtered.filter fun c => filters.implementing_offices.contains c.implementing_office
  else filtered

/-- Analytics contractors stage: case-sensitive substring match
`name.includes(filterContractor)`. -/
def aFilterStageContractors (filters : ContractFilters) (filtered : List Contract) : List Contract :=
  if 0 < filters.contractors.length then
    filtered.filter fun c =>
      let contractorNames := getContractorNames c
      filters.contractors.any fun filterContractor =>
        contractorNames.any fun name => jsIncludes name filterContractor
  else filtered

/-- Analytics statuses stage: exact membership. -/
def aFilterStageStatuses (filters : ContractFilters) (filtered : List Contract) : List Contract :=
  if 0 < filters.statuses.length then
    filtered.filter fun c => filters.statuses.contains c.status
  else filtered

/-- Analytics years stage: `filters.years.includes(c.year)` (no truthy guard;
a `null` year is simply not an element of a number list). -/
def aFilterStageYears (filters : ContractFilters) (filtered : List Contract) : List Contract :=
  if 0 < filters.years.length then
    filtered.filter fun c => (c.year.map filters.years.contains).getD false
  else filtered

/-- Searchable text of the analytics keyword stage: template literal
`description contractor_name_1 region implementing_office`, lowercased. -/
def analyticsSearchText (c : Contract) : String :=
  jsToLower (c.description ++ " " ++ c.contractor_name_1 ++ " " ++ c.region ++ " " ++
    c.implementing_office)

/-- Analytics keyword stage: `filters.keywords.some(keyword =>
searchText.includes(keyword.toLowerCase()))` — note `some`, not `every`. -/
def aFilterStageKeywords (filters : ContractFilters) (filtered : List Contract) : List Contract :=
  if 0 < filters.keywords.length then
    filtered.filter fun c =>
      filters.keywords.any fun keyword => jsIncludes (analyticsSearchText c) (jsToLower keyword)
  else filtered

/-- Analytics valueRange stage (identical to the table one). -/
def aFilterStageValueRange (filters : ContractFilters) (filtered : List Contract) : List Contract :=
  filterStageValueRange filters filtered

/-- Analytics dateRange stage (identical to the table one). -/
def aFilterStageDateRange (filters : ContractFilters) (filtered : List Contract) : List Contract :=
  filterStageDateRange filters filtered

/-- `filteredContracts` of `useContractsAnalytics` (lines 48-114): the eight
conditional filter blocks of the analytics path, in source order. -/
def analyticsFilteredContracts (contracts : List Contract) (filters : ContractFilters) : List Contract :=
  aFilterStageDateRange filters
    (aFilterStageValueRange filters
      (aFilterStageKeywords filters
        (aFilterStageYears filters
          (aFilterStageStatuses filters
            (aFilterStageContractors filters
              (aFilterStageOffices filters
                (aFilterStageRegions filters contracts)))))))

/-! ### Sort engine (`useContractFilters`, useContractsData.ts lines 170-195)

`Array.prototype.sort` is required to be stable since ES2019; it is modelled
here as a stable insertion sort driven by the numeric comparator: an element
is inserted before the first element `y` of the already-sorted prefix with
`cmp x y < 0`, which preserves the original relative order of ties. -/

/-- Insert `x` into `sorted` before the first element `y` with `cmp x y < 0`. -/
def insertSorted (cmp : α → α → Rat) (x : α) : List α → List α
  | [] => [x]
  | y :: ys => if cmp x y < 0 then x :: y :: ys else y :: insertSorted cmp x ys

/-- Stable sort by a JS-style numeric comparator (model of `Array.prototype.sort`). -/
def jsStableSort (cmp : α → α → Rat) (l : List α) : List α :=
  l.foldl (fun sorted x => insertSorted cmp x sorted) []

/-- Sort direction of `ContractSortConfig`. -/
inductive SortDir
  | asc
  | desc
deriving DecidableEq, Repr

/-- The sortable fields of `Contract` (`sortConfig.field as keyof Contract`). -/
inductive SortField
  | row_number
  | contract_id
  | description
  | contractor_name_1
  | contractor_id_1
  | contractor_name_2
  | contractor_id_2
  | contractor_name_3
  | contractor_id_3
  | contractor_name_4
  | contractor_id_4
  | region
  | implementing_office
  | source_of_funds
  | cost_php
  | effectivity_date
  | expiry_date
  | status
  | accomplishment_pct
  | year
  | source_office
  | file_source
  | critical_errors
  | errors
  | warnings
  | info_notes
deriving DecidableEq, Repr

/-- `ContractSortConfig`. -/
structure ContractSortConfig where
  field : SortField
  direction : SortDir
deriving DecidableEq, Repr

/-- A JS value read from a contract field: a number or a string
(`null`/`undefined` is `none` at the use site). -/
inductive SortVal
  | num (q : Rat)
  | str (s : String)
deriving DecidableEq, Repr

/-- `a[sortConfig.field as keyof Contract]`, with `null` as `none`. -/
def sortValue (field : SortField) (c : Contract) : Option SortVal :=
  match field with
  | .row_number => some (.num c.row_number)
  | .contract_id => some (.str c.contract_id)
  | .description => some (.str c.description)
  | .contractor_name_1 => some (.str c.contractor_name_1)
  | .contractor_id_1 => some (.str c.contractor_id_1)
  | .contractor_name_2 => some (.str c.contractor_name_2)
  | .contractor_id_2 => some (.str c.contractor_id_2)
  | .contractor_name_3 => some (.str c.contractor_name_3)
  | .contractor_id_3 => some (.str c.contractor_id_3)
  | .contractor_name_4 => some (.str c.contractor_name_4)
  | .contractor_id_4 => some (.str c.contractor_id_4)
  | .region => some (.str c.region)
  | .implementing_office => some (.str c.implementing_office)
  | .source_of_funds => some (.str c.source_of_funds)
  | .cost_php => c.cost_php.map .num
  | .effectivity_date => c.effectivity_date.map .str
  | .expiry_date => c.expiry_date.map .str
  | .status => some (.str c.status)
  | .accomplishment_pct => c.accomplishment_pct.map .num
  | .year => c.year.map fun y => .num y
  | .source_office => some (.str c.source_office)
  | .file_source => some (.str c.file_source)
  | .critical_errors => c.critical_errors.map .str
  | .errors => c.errors.map .str
  | .warnings => c.warnings.map .str
  | .info_notes => c.info_notes.map .str

/-- Model of JS `String(value)` on a sort value. -/
def sortValToString : SortVal → String
  | .num q => toString q
  | .str s => s

/-- Lexicographic code-point order on character lists. -/
def charsLt : List Char → List Char → Bool
  | [], [] => false
  | [], _ :: _ => true
  | _ :: _, [] => false
  | a :: as, b :: bs => if a < b then true else if b < a then false else charsLt as bs

/-- Model of `a.localeCompare(b)` as code-point string comparison. -/
def localeCompare (a b : String) : Rat :=
  if charsLt a.data b.data then -1 else if a = b then 0 else 1

/-- The sort comparator of `useContractFilters` (lines 171-195): nulls first
(`return 1` / `return -1`), then numeric difference for number pairs, else
case-insensitive string comparison, with the direction flipping the operands. -/
def cmpContracts (sortConfig : ContractSortConfig) (a b : Contract) : Rat :=
  match sortValue sortConfig.field a, sortValue sortConfig.field b with
  | none, _ => 1
  | some _, none => -1
  | some aValue, some bValue =>
    match aValue, bValue with
    | .num x, .num y => if sortConfig.direction = .asc then x - y else y - x
    | _, _ =>
      let aStr := jsToLower (sortValToString aValue)
      let bStr := jsToLower (sortValToString bValue)
      if sortConfig.direction = .asc then localeCompare aStr bStr else localeCompare bStr aStr

/-- The sort stage of `useContractFilters`. -/
def sortContracts (sortConfig : ContractSortConfig) (l : List Contract) : List Contract :=
  jsStableSort (cmpContracts sortConfig) l

/-- `useContractFilters` (useContractsData.ts lines 54-199): the filter
stages followed by the sort stage. -/
def useContractFilters (contracts : List Contract) (filters : ContractFilters)
    (sortConfig : ContractSortConfig) : List Contract :=
  sortContracts sortConfig (applyTableFilters filters contracts)

/-! ### Aggregation engine (`utils/contractsAnalytics.ts`)

A JS `Map` is insertion-ordered with unique keys; it is modelled as an
association list where `set` overwrites the first (hence only) entry with
the key, or appends a fresh entry at the end. -/

/-- `map.get(k)` on the association-list model of a JS `Map`. -/
def mapGet [DecidableEq κ] : List (κ × β) → κ → Option β
  | [], _ => none
  | e :: rest, k => if e.1 = k then some e.2 else mapGet rest k

/-- `map.set(k, v)` on the association-list model of a JS `Map`. -/
def mapSet [DecidableEq κ] : List (κ × β) → κ → β → List (κ × β)
  | [], k, v => [(k, v)]
  | e :: rest, k, v => if e.1 = k then (k, v) :: rest else e :: mapSet rest k v

/-- One iteration of the `contracts.forEach` accumulation loop shared by the
aggregation functions: a record whose key is absent (`none`) is skipped,
otherwise the map entry for its key is bumped. -/
def aggStep [DecidableEq κ] (key : Contract → Option κ) (bump : Option β → Contract → β)
    (map : List (κ × β)) (contract : Contract) : List (κ × β) :=
  match key contract with
  | none => map
  | some k => mapSet map k (bump (mapGet map k) contract)

/-- The common `contracts.forEach` accumulation loop of the aggregation
functions, starting from the empty map. -/
def aggLoop [DecidableEq κ] (key : Contract → Option κ) (bump : Option β → Contract → β)
    (contracts : List Contract) : List (κ × β) :=
  contracts.foldl (aggStep key bump) []

/-- `AggregatedEntity` (contractsAnalytics.ts). -/
structure AggregatedEntity where
  name : String
  total_value : Rat
  count : Nat
  avg_value : Rat
deriving DecidableEq, Repr

/-- The entry update shared by the categorical aggregations:
`existing = map.get(k) || {total_value: 0, count: 0}`, then add
`cost = contract.cost_php || 0` and increment the count. -/
def entityBump (existing : Option (Rat × Nat)) (contract : Contract) : Rat × Nat :=
  let cost := jsRatOr contract.cost_php 0
  let e := existing.getD (0, 0)
  (e.1 + cost, e.2 + 1)

/-- `Array.from(map.entries()).map(...)` with
`avg_value: data.total_value / Math.max(1, data.count)`, then
`.sort((a, b) => b.total_value - a.total_value)`. -/
def finalizeEntities (map : List (String × (Rat × Nat))) : List AggregatedEntity :=
  jsStableSort (fun a b => b.total_value - a.total_value)
    (map.map fun e =>
      { name := e.1, total_value := e.2.1, count := e.2.2
        avg_value := e.2.1 / max 1 (e.2.2 : Rat) })

/-- The grouping key of `aggregateByRegion`: `contract.region || 'Unknown'`. -/
def regionKey (contract : Contract) : String :=
  jsStrOr contract.region "Unknown"

/-- `aggregateByRegion` (contractsAnalytics.ts lines 88-110). -/
def aggregateByRegion (contracts : List Contract) : List AggregatedEntity :=
  finalizeEntities (aggLoop (fun contract => some (regionKey contract)) entityBump contracts)

/-- `aggregateByImplementingOffice` (lines 115-137). -/
def aggregateByImplementingOffice (contracts : List Contract) : List AggregatedEntity :=
  finalizeEntities
    (aggLoop (fun contract => some (jsStrOr contract.implementing_office "Unknown")) entityBump contracts)

/-- `aggregateByStatus` (lines 142-164). -/
def aggregateByStatus (contracts : List Contract) : List AggregatedEntity :=
  finalizeEntities
    (aggLoop (fun contract => some (jsStrOr contract.status "Unknown")) entityBump contracts)

/-- `aggregateBySourceOfFunds` (lines 169-191). -/
def aggregateBySourceOfFunds (contracts : List Contract) : List AggregatedEntity :=
  finalizeEntities
    (aggLoop (fun contract => some (jsStrOr contract.source_of_funds "Unknown")) entityBump contracts)

/-- The fan-out accumulation loop of `aggregateByContractor` (lines 57-73):
each record bumps one entry per truthy contractor name. -/
def aggregateByContractorMap (contracts : List Contract) : List (String × (Rat × Nat)) :=
  contracts.foldl
    (fun map contract =>
      let contractors := getContractorNames contract
      contractors.foldl
        (fun map contractor =>
          if !contractor.isEmpty then
            mapSet map contractor (entityBump (mapGet map contractor) contract)
          else map)
        map)
    []

/-- `aggregateByContractor` (lines 57-83). -/
def aggregateByContractor (contracts : List Contract) : List AggregatedEntity :=
  finalizeEntities (aggregateByContractorMap contracts)

/-- `YearlyAggregate`. -/
structure YearlyAggregate where
  year : Int
  total_value : Rat
  count : Nat
  avg_value : Rat
deriving DecidableEq, Repr

/-- `aggregateByYear` (lines 196-219): keyed by the truthy `year` field,
records with a falsy year are skipped; result sorted by year ascending. -/
def aggregateByYear (contracts : List Contract) : List YearlyAggregate :=
  let map := aggLoop (fun contract => if jsTruthyInt contract.year then contract.year else none)
    entityBump contracts
  jsStableSort (fun a b => (a.year : Rat) - (b.year : Rat))
    (map.map fun e =>
      { year := e.1, total_value := e.2.1, count := e.2.2
        avg_value := e.2.1 / max 1 (e.2.2 : Rat) })

/-- `String(n).padStart(2, '0')` for a month number. -/
def pad2 (n : Nat) : String :=
  (if n < 10 then "0" else "") ++ toString n

/-- `MonthlyAggregate` (`month` has the shape `"YYYY-MM"`). -/
structure MonthlyAggregate where
  month : String
  total_value : Rat
  count : Nat
  avg_value : Rat
deriving DecidableEq, Repr

/-- The month bucket of a record: `none` when `effectivity_date` is falsy or
fails to parse (`isNaN(date.getTime())`), otherwise `"YYYY-MM"`. -/
def monthKey (contract : Contract) : Option String :=
  if jsTruthyStr contract.effectivity_date then
    match contract.effectivity_date with
    | some ed =>
      (parseJsDate ed).map fun date => toString date.year ++ "-" ++ pad2 date.month
    | none => none
  else none

/-- `aggregateByMonth` (lines 224-256): unbucketable records are skipped;
result sorted by the month string ascending (`localeCompare`). -/
def aggregateByMonth (contracts : List Contract) : List MonthlyAggregate :=
  let map := aggLoop monthKey entityBump contracts
  jsStableSort (fun a b => localeCompare a.month b.month)
    (map.map fun e =>
      { month := e.1, total_value := e.2.1, count := e.2.2
        avg_value := e.2.1 / max 1 (e.2.2 : Rat) })

/-- `QuarterlyAggregate`. -/
structure QuarterlyAggregate where
  year : Int
  quarter : Nat
  total_value : Rat
  count : Nat
  avg_value : Rat
deriving DecidableEq, Repr

/-- The (year, quarter) of a record's `effectivity_date`, with
`quarter = Math.ceil(month / 3)`; `none` when the date is falsy/unparseable. -/
def quarterParts (contract : Contract) : Option (Int × Nat) :=
  if jsTruthyStr contract.effectivity_date then
    match contract.effectivity_date with
    | some ed =>
      (parseJsDate ed).map fun date => (date.year, (date.month + 2) / 3)
    | none => none
  else none

/-- The quarter bucket key `"${year}-Q${quarter}"`. -/
def quarterKey (contract : Contract) : Option String :=
  (quarterParts contract).map fun yq => toString yq.1 ++ "-Q" ++ toString yq.2

/-- The map-entry update of `aggregateByQuarter`: the entry stores year and
quarter alongside the running total and count. -/
def quarterBump (existing : Option (Int × Nat × Rat × Nat)) (contract : Contract) :
    Int × Nat × Rat × Nat :=
  let cost := jsRatOr contract.cost_php 0
  let yq := (quarterParts contract).getD (0, 0)
  let e := existing.getD (yq.1, yq.2, 0, 0)
  (e.1, e.2.1, e.2.2.1 + cost, e.2.2.2 + 1)

/-- `aggregateByQuarter` (lines 261-302): result sorted by year then quarter. -/
def aggregateByQuarter (contracts : List Contract) : List QuarterlyAggregate :=
  let map := aggLoop quarterKey quarterBump contracts
  jsStableSort
    (fun a b =>
      if a.year ≠ b.year then (a.year : Rat) - (b.year : Rat)
      else (a.quarter : Rat) - (b.quarter : Rat))
    (map.map fun e =>
      { year := e.2.1, quarter := e.2.2.1, total_value := e.2.2.2.1, count := e.2.2.2.2
        avg_value := e.2.2.2.1 / max 1 (e.2.2.2.2 : Rat) })

/-- One row of the `summary` member of `ContractsAggregates`. -/
structure SummaryRow where
  count : Nat
  total_value : Rat
  avg_value : Rat
deriving DecidableEq, Repr

/-- `ContractsAggregates`. -/
structure ContractsAggregates where
  summary : List SummaryRow
  by_contractor : List AggregatedEntity
  by_region : List AggregatedEntity
  by_implementing_office : List AggregatedEntity
  by_status : List AggregatedEntity
  by_source_of_funds : List AggregatedEntity
  by_year : List YearlyAggregate
  by_month : List MonthlyAggregate
  by_quarter : List QuarterlyAggregate
deriving Repr

/-- `getContractsAggregates` (lines 307-327): top-level summary with an
explicit zero-count special case, plus all dimension aggregations. -/
def getContractsAggregates (contracts : List Contract) : ContractsAggregates :=
  let totalValue := contracts.foldl (fun sum c => sum + jsRatOr c.cost_php 0) 0
  let count := contracts.length
  let avgValue := if 0 < count then totalValue / (count : Rat) else 0
  { summary := [{ count := count, total_value := totalValue, avg_value := avgValue }]
    by_contractor := aggregateByContractor contracts
    by_region := aggregateByRegion contracts
    by_implementing_office := aggregateByImplementingOffice contracts
    by_status := aggregateByStatus contracts
    by_source_of_funds := aggregateBySourceOfFunds contracts
    by_year := aggregateByYear contracts
    by_month := aggregateByMonth contracts
    by_quarter := aggregateByQuarter contracts }

/-- The `metric` selector of the analytics view. -/
inductive Metric
  | amount
  | count
  | avg
deriving DecidableEq, Repr

/-- `sortAggregatedEntities` (lines 332-356): sort descending by the chosen
metric, then `if (limit)` (truthy) take a prefix. -/
def sortAggregatedEntities (entities : List AggregatedEntity) (metric : Metric)
    (limit : Option Nat) : List AggregatedEntity :=
  let sorted :=
    match metric with
    | .amount => jsStableSort (fun a b => b.total_value - a.total_value) entities
    | .count => jsStableSort (fun a b => (b.count : Rat) - (a.count : Rat)) entities
    | .avg => jsStableSort (fun a b => b.avg_value - a.avg_value) entities
  match limit with
  | some n => if n ≠ 0 then sorted.take n else sorted
  | none => sorted

/-! ### The analytics hook (`useContractsAnalytics`, useContractsAnalytics.ts) -/

/-- The `dimension` selector of the analytics view. -/
inductive Dimension
  | by_contractor
  | by_region
  | by_implementing_office
  | by_status
  | by_source_of_funds
deriving DecidableEq, Repr

/-- The `summaryStats` member of the hook result. -/
structure SummaryStats where
  totalContracts : Nat
  totalValue : Rat
  averageValue : Rat
deriving DecidableEq, Repr

/-- The hook result (`UseContractsAnalyticsReturn` minus `loading`). -/
structure AnalyticsReturn where
  aggregates : Option ContractsAggregates
  processedData : List AggregatedEntity
  summaryStats : SummaryStats

/-- `yearFilteredContracts` (lines 117-120): `yearFilter = 'all'` is `none`. -/
def yearFilteredContracts (contracts : List Contract) (filters : ContractFilters)
    (yearFilter : Option Int) : List Contract :=
  let filteredContracts := analyticsFilteredContracts contracts filters
  match yearFilter with
  | none => filteredContracts
  | some y => filteredContracts.filter fun c => c.year == some y

/-- `useContractsAnalytics` (lines 40-175): filtered records, `aggregates`
(`null` on an empty filtered list), `processedData` (the `switch` has no
`by_source_of_funds` case, so that dimension keeps the initial `[]`), and
`summaryStats`. -/
def useContractsAnalytics (contracts : List Contract) (filters : ContractFilters)
    (dimension : Dimension) (metric : Metric) (yearFilter : Option Int) : AnalyticsReturn :=
  let yearFiltered := yearFilteredContracts contracts filters yearFilter
  let aggregates : Option ContractsAggregates :=
    if yearFiltered.length = 0 then none else some (getContractsAggregates yearFiltered)
  let processedData :=
    match aggregates with
    | none => []
    | some aggs =>
      let entities :=
        match dimension with
        | .by_contractor => aggs.by_contractor
        | .by_region => aggs.by_region
        | .by_implementing_office => aggs.by_implementing_office
        | .by_status => aggs.by_status
        | .by_source_of_funds => []
      sortAggregatedEntities entities metric none
  let summaryStats :=
    match aggregates with
    | none => { totalContracts := 0, totalValue := 0, averageValue := 0 }
    | some aggs =>
      match aggs.summary.head? with
      | none => { totalContracts := 0, totalValue := 0, averageValue := 0 }
      | some summary =>
        { totalContracts := summary.count, totalValue := summary.total_value
          averageValue := summary.avg_value }
  { aggregates := aggregates, processedData := processedData, summaryStats := summaryStats }

/-! ### Drill-down and pagination (`ContractsAnalyticsModal.tsx`,
`ContractsExplorer.tsx`) -/

/-- The drill-down entity kinds. -/
inductive EntityType
  | contractor
  | region
  | implementing_office
  | status
  | source_of_funds
deriving DecidableEq, Repr

/-- One breadcrumb pin (`displayName` plays no role in filtering). -/
structure Breadcrumb where
  entityType : EntityType
  entityId : String
deriving DecidableEq, Repr

/-- The per-breadcrumb equality predicate of `drillDownContracts`
(ContractsAnalyticsModal.tsx lines 219-235); contractor pins compare
`contractor_id_1` only. -/
def matchesBreadcrumb (contract : Contract) (bc : Breadcrumb) : Bool :=
  match bc.entityType with
  | .contractor => contract.contractor_id_1 == bc.entityId
  | .region => contract.region == bc.entityId
  | .implementing_office => contract.implementing_office == bc.entityId
  | .status => contract.status == bc.entityId
  | .source_of_funds => contract.source_of_funds == bc.entityId

/-- `drillDownContracts` (lines 214-237): empty unless the drill-down is open
with at least one breadcrumb; otherwise the records matching ALL breadcrumbs. -/
def drillDownContracts (isOpen : Bool) (contracts : List Contract)
    (breadcrumbs : List Breadcrumb) : List Contract :=
  if !isOpen || breadcrumbs.length = 0 then []
  else contracts.filter fun contract => breadcrumbs.all (matchesBreadcrumb contract)

/-- The contractor name-to-id resolution of `handleEntityClick` (lines 201-208):
find the first record whose `contractor_name_1` equals the clicked name and use
its `contractor_id_1` when truthy, else keep the name. -/
def resolveContractorEntityId (contracts : List Contract) (entityName : String) : String :=
  match contracts.find? (fun c => c.contractor_name_1 == entityName) with
  | some contract =>
    if !contract.contractor_id_1.isEmpty then contract.contractor_id_1 else entityName
  | none => entityName

/-- JS `array.slice(start, stop)` (for `0 <= start <= stop`). -/
def jsSlice (l : List α) (start stop : Nat) : List α :=
  (l.drop start).take (stop - start)

/-- `paginatedContracts` (ContractsExplorer.tsx lines 123-127) and
`paginatedData` (ContractsAnalyticsModal.tsx lines 183-187):
`slice(start, start + pageSize)` with `start = (page - 1) * pageSize`. -/
def paginatedContracts (filteredContracts : List α) (page pageSize : Nat) : List α :=
  let start := (page - 1) * pageSize
  let stop := start + pageSize
  jsSlice filteredContracts start stop

/-- `totalPages = Math.ceil(total / pageSize)`. -/
def totalPagesOf (total pageSize : Nat) : Nat :=
  (total + pageSize - 1) / pageSize

/-- The record's value for the sort field is `null`/`undefined`. -/
def isNullAt (field : SortField) (c : Contract) : Bool :=
  (sortValue field c).isNone

/-- Nulls-after-non-nulls as a pairwise relation: once a record with a null
sort value appears, everything after it is null too. -/
def NullsLast (field : SortField) (l : List Contract) : Prop :=
  l.Pairwise fun a b => isNullAt field a = true → isNullAt field b = true

/-- A record-list transformer that is extensionally a `List.filter`. -/
def IsFilterMap (F : List Contract → List Contract) : Prop :=
  ∃ p : Contract → Bool, ∀ l, F l = l.filter p

/-- Total of a count projection over all map entries. -/
def sumCnt {κ β : Type} (cnt : β → Nat) (m : List (κ × β)) : Nat :=
  (m.map fun e => cnt e.2).sum

/-- Count of an optional entry (0 when absent). -/
def cntOpt {β : Type} (cnt : β → Nat) : Option β → Nat
  | some b => cnt b
  | none => 0

/-- Count of the entry stored under `k` (0 when absent). -/
def getCnt {κ β : Type} [DecidableEq κ] (cnt : β → Nat) (m : List (κ × β)) (k : κ) : Nat :=
  cntOpt cnt (mapGet m k)

/-! ### Concrete records used in scenarios, witnesses and counterexamples -/

/-- A record with every field empty/null. -/
def baseContract : Contract :=
  { row_number := 0, contract_id := "", description := "", contractor_name_1 := ""
    contractor_id_1 := "", contractor_name_2 := "", contractor_id_2 := ""
    contractor_name_3 := "", contractor_id_3 := "", contractor_name_4 := ""
    contractor_id_4 := "", region := "", implementing_office := "", source_of_funds := ""
    cost_php := none, effectivity_date := none, expiry_date := none, status := ""
    accomplishment_pct := none, year := none, source_office := "", file_source := ""
    critical_errors := none, errors := none, warnings := none, info_notes := none }

/-- Scenario record: region NCR, cost 100, contractor A. -/
def r100Ex : Contract :=
  { baseContract with
    row_number := 1
    region := "NCR"
    cost_php := some 100
    contractor_name_1 := "A" }

/-- Scenario record: region NCR, null cost, contractor B. -/
def rnullEx : Contract :=
  { baseContract with
    row_number := 2
    region := "NCR"
    cost_php := none
    contractor_name_1 := "B" }

/-- Scenario record: region CAR, cost 50, contractor A. -/
def r50Ex : Contract :=
  { baseContract with
    row_number := 3
    region := "CAR"
    cost_php := some 50
    contractor_name_1 := "A" }

/-- A record whose region strictly contains "NCR". -/
def cNCRX : Contract :=
  { baseContract with region := "NCRX", status := "Completed" }

/-- A record with region exactly "NCR" and status "Completed". -/
def cNCREx : Contract :=
  { baseContract with region := "NCR", status := "Completed" }

/-- A record whose description contains the keyword "road" but not "bridge". -/
def rRoadEx : Contract :=
  { baseContract with description := "road" }

/-- A keyword-only filter spec with two keywords. -/
def kwFiltersEx : ContractFilters :=
  { emptyFilters with keywords := ["road", "bridge"] }

/-- The filter spec of the drill-down scenario. -/
def specNCRCompleted : ContractFilters :=
  { emptyFilters with regions := ["NCR"], statuses := ["Completed"] }

/-- The breadcrumb path of the drill-down scenario. -/
def breadcrumbsNCRCompleted : List Breadcrumb :=
  [{ entityType := .region, entityId := "NCR" }, { entityType := .status, entityId := "Completed" }]

/-- A record with two contractor slots filled (fan-out example); the id "C-2"
appears only in slot 2. -/
def cSlot2Ex : Contract :=
  { baseContract with
    contractor_name_1 := "Alpha Corp"
    contractor_id_1 := "C-1"
    contractor_name_2 := "Beta Corp"
    contractor_id_2 := "C-2"
    cost_php := some 10 }

/-- A record has a parseable `effectivity_date`. -/
def hasParseableDate (c : Contract) : Bool :=
  match c.effectivity_date with
  | some s => (parseJsDate s).isSome
  | none => false

/-! ### General lemmas about the JS sort model -/

theorem insertSorted_perm (cmp : α → α → Rat) (x : α) (l : List α) :
    (insertSorted cmp x l).Perm (x :: l) := by
  induction l with
  | nil => exact List.Perm.refl _
  | cons y ys ih =>
    rw [insertSorted]
    split
    · exact List.Perm.refl _
    · exact (List.Perm.cons y ih).trans (List.Perm.swap x y ys)

theorem foldl_insertSorted_perm (cmp : α → α → Rat) :
    ∀ (l acc : List α), (l.foldl (fun sorted x => insertSorted cmp x sorted) acc).Perm (acc ++ l) := by
  intro l
  induction l with
  | nil => intro acc; simp
  | cons x xs ih =>
    intro acc
    rw [List.foldl_cons]
    refine (ih (insertSorted cmp x acc)).trans ?_
    exact (List.Perm.append_right xs (insertSorted_perm cmp x acc)).trans List.perm_middle.symm

theorem jsStableSort_perm (cmp : α → α → Rat) (l : List α) :
    (jsStableSort cmp l).Perm l := by
  simpa using foldl_insertSorted_perm cmp l []

theorem mem_jsStableSort (cmp : α → α → Rat) (l : List α) (a : α) :
    a ∈ jsStableSort cmp l ↔ a ∈ l :=
  (jsStableSort_perm cmp l).mem_iff

/-! ### Null placement under the sort comparator (claim C3 machinery) -/

theorem cmpContracts_of_null_left (sc : ContractSortConfig) (a b : Contract)
    (ha : isNullAt sc.field a = true) : cmpContracts sc a b = 1 := by
  unfold cmpContracts
  unfold isNullAt at ha
  cases h : sortValue sc.field a with
  | none => rfl
  | some v => rw [h] at ha; simp [Option.isNone] at ha

theorem cmpContracts_of_null_right (sc : ContractSortConfig) (a b : Contract)
    (ha : isNullAt sc.field a = false) (hb : isNullAt sc.field b = true) :
    cmpContracts sc a b = -1 := by
  unfold cmpContracts
  unfold isNullAt at ha hb
  cases h : sortValue sc.field a with
  | none => rw [h] at ha; simp [Option.isNone] at ha
  | some va =>
    cases h2 : sortValue sc.field b with
    | none => rfl
    | some vb => rw [h2] at hb; simp [Option.isNone] at hb

theorem mem_insertSorted (cmp : α → α → Rat) (x : α) (l : List α) (z : α) :
    z ∈ insertSorted cmp x l ↔ z = x ∨ z ∈ l := by
  rw [(insertSorted_perm cmp x l).mem_iff]
  simp

theorem nullsLast_insertSorted (sc : ContractSortConfig) (x : Contract) (l : List Contract)
    (hl : NullsLast sc.field l) : NullsLast sc.field (insertSorted (cmpContracts sc) x l) := by
  induction l with
  | nil => simp [insertSorted, NullsLast]
  | cons y ys ih =>
    rw [NullsLast, List.pairwise_cons] at hl
    obtain ⟨hy, hys⟩ := hl
    rw [insertSorted]
    split
    next hcmp =>
      rw [NullsLast, List.pairwise_cons]
      constructor
      · intro b _ hx
        exact absurd (cmpContracts_of_null_left sc x y hx ▸ hcmp) (by norm_num)
      · rw [NullsLast] at *
        exact List.pairwise_cons.mpr ⟨hy, hys⟩
    next hcmp =>
      rw [NullsLast, List.pairwise_cons]
      constructor
      · intro b hb
        rcases (mem_insertSorted (cmpContracts sc) x ys b).mp hb with rfl | hbys
        · intro hynull
          by_cases hx : isNullAt sc.field b = true
          · exact hx
          · rw [Bool.not_eq_true] at hx
            exact absurd (cmpContracts_of_null_right sc b y hx hynull ▸ hcmp)
              (by norm_num)
        · exact hy b hbys
      · exact ih hys

theorem nullsLast_jsStableSort (sc : ContractSortConfig) (l : List Contract) :
    NullsLast sc.field (jsStableSort (cmpContracts sc) l) := by
  rw [jsStableSort]
  have main : ∀ (l acc : List Contract), NullsLast sc.field acc →
      NullsLast sc.field (l.foldl (fun sorted x => insertSorted (cmpContracts sc) x sorted) acc) := by
    intro l
    induction l with
    | nil => intro acc hacc; exact hacc
    | cons x xs ih =>
      intro acc hacc
      rw [List.foldl_cons]
      exact ih _ (nullsLast_insertSorted sc x acc hacc)
  exact main l [] (by simp [NullsLast])

/-! ### Filter pipelines as single `List.filter`s (claim C4 machinery) -/

theorem IsFilterMap.comp {F G : List Contract → List Contract}
    (hF : IsFilterMap F) (hG : IsFilterMap G) : IsFilterMap (fun l => G (F l)) := by
  obtain ⟨p, hp⟩ := hF
  obtain ⟨q, hq⟩ := hG
  refine ⟨fun a => q a && p a, fun l => ?_⟩
  show G (F l) = _
  rw [hp, hq, List.filter_filter]

theorem IsFilterMap.of_ite (cond : Prop) [Decidable cond] (p : Contract → Bool) :
    IsFilterMap (fun l => if cond then l.filter p else l) := by
  refine ⟨fun c => if cond then p c else true, fun l => ?_⟩
  split
  next h => simp [h]
  next h => simp [h]

theorem IsFilterMap.idem {F : List Contract → List Contract}
    (hF : IsFilterMap F) (l : List Contract) : F (F l) = F l := by
  obtain ⟨p, hp⟩ := hF
  rw [hp, hp, List.filter_filter]
  exact List.filter_congr fun x _ => Bool.and_self (p x)

theorem isFilterMap_filterStageRegions (filters : ContractFilters) :
    IsFilterMap (filterStageRegions filters) :=
  IsFilterMap.of_ite _ _

theorem isFilterMap_filterStageOffices (filters : ContractFilters) :
    IsFilterMap (filterStageOffices filters) :=
  IsFilterMap.of_ite _ _

theorem isFilterMap_filterStageContractors (filters : ContractFilters) :
    IsFilterMap (filterStageContractors filters) :=
  IsFilterMap.of_ite _ _

theorem isFilterMap_filterStageStatuses (filters : ContractFilters) :
    IsFilterMap (filterStageStatuses filters) :=
  IsFilterMap.of_ite _ _

theorem isFilterMap_filterStageYears (filters : ContractFilters) :
    IsFilterMap (filterStageYears filters) :=
  IsFilterMap.of_ite _ _

theorem isFilterMap_filterStageFunds (filters : ContractFilters) :
    IsFilterMap (filterStageFunds filters) :=
  IsFilterMap.of_ite _ _

theorem isFilterMap_filterStageKeywords (filters : ContractFilters) :
    IsFilterMap (filterStageKeywords filters) :=
  IsFilterMap.of_ite _ _

theorem isFilterMap_filterStageMinCost (filters : ContractFilters) :
    IsFilterMap (filterStageMinCost filters) := by
  unfold filterStageMinCost
  cases filters.minCost with
  | none => exact ⟨fun _ => true, fun l => by simp⟩
  | some minCost => exact ⟨_, fun l => rfl⟩

theorem isFilterMap_filterStageMaxCost (filters : ContractFilters) :
    IsFilterMap (filterStageMaxCost filters) := by
  unfold filterStageMaxCost
  cases filters.maxCost with
  | none => exact ⟨fun _ => true, fun l => by simp⟩
  | some maxCost => exact ⟨_, fun l => rfl⟩

theorem isFilterMap_filterStageValueRange (filters : ContractFilters) :
    IsFilterMap (filterStageValueRange filters) := by
  unfold filterStageValueRange
  cases filters.valueRange with
  | none => exact ⟨fun _ => true, fun l => by simp⟩
  | some vr =>
    obtain ⟨mno, mxo⟩ := vr
    cases mno with
    | none =>
      cases mxo with
      | none => exact ⟨fun _ => true, fun l => by simp⟩
      | some mx => exact ⟨_, fun l => rfl⟩
    | some mn =>
      cases mxo with
      | none => exact ⟨_, fun l => rfl⟩
      | some mx =>
        refine ⟨fun c => (match c.cost_php with | some v => decide (v ≤ mx) | none => false)
          && (match c.cost_php with | some v => decide (mn ≤ v) | none => false), fun l => ?_⟩
        show List.filter _ (List.filter _ l) = _
        rw [List.filter_filter]

theorem isFilterMap_filterStageDateRange (filters : ContractFilters) :
    IsFilterMap (filterStageDateRange filters) := by
  unfold filterStageDateRange
  cases filters.dateRange with
  | none => exact ⟨fun _ => true, fun l => by simp⟩
  | some dr => exact IsFilterMap.of_ite _ _

theorem isFilterMap_applyTableFilters (filters : ContractFilters) :
    IsFilterMap (applyTableFilters filters) := by
  have h := ((((((((((isFilterMap_filterStageRegions filters).comp
    (isFilterMap_filterStageOffices filters)).comp
    (isFilterMap_filterStageContractors filters)).comp
    (isFilterMap_filterStageStatuses filters)).comp
    (isFilterMap_filterStageYears filters)).comp
    (isFilterMap_filterStageFunds filters)).comp
    (isFilterMap_filterStageKeywords filters)).comp
    (isFilterMap_filterStageMinCost filters)).comp
    (isFilterMap_filterStageMaxCost filters)).comp
    (isFilterMap_filterStageValueRange filters)).comp
    (isFilterMap_filterStageDateRange filters)
  obtain ⟨p, hp⟩ := h
  exact ⟨p, fun l => hp l⟩

theorem isFilterMap_aFilterStages (filters : ContractFilters) :
    IsFilterMap (fun contracts => analyticsFilteredContracts contracts filters) := by
  have h1 : IsFilterMap (aFilterStageRegions filters) := IsFilterMap.of_ite _ _
  have h2 : IsFilterMap (aFilterStageOffices filters) := IsFilterMap.of_ite _ _
  have h3 : IsFilterMap (aFilterStageContractors filters) := IsFilterMap.of_ite _ _
  have h4 : IsFilterMap (aFilterStageStatuses filters) := IsFilterMap.of_ite _ _
  have h5 : IsFilterMap (aFilterStageYears filters) := IsFilterMap.of_ite _ _
  have h6 : IsFilterMap (aFilterStageKeywords filters) := IsFilterMap.of_ite _ _
  have h7 : IsFilterMap (aFilterStageValueRange filters) :=
    isFilterMap_filterStageValueRange filters
  have h8 : IsFilterMap (aFilterStageDateRange filters) :=
    isFilterMap_filterStageDateRange filters
  have h := (((((((h1.comp h2).comp h3).comp h4).comp h5).comp h6).comp h7).comp h8)
  obtain ⟨p, hp⟩ := h
  exact ⟨p, fun l => hp l⟩

/-! ### Counting lemmas for the aggregation loop (claims C5/C6 machinery) -/

section AggCounting

variable {κ β : Type} [DecidableEq κ]


@[simp] theorem cntOpt_some (cnt : β → Nat) (b : β) : cntOpt cnt (some b) = cnt b := rfl

@[simp] theorem cntOpt_none (cnt : β → Nat) : cntOpt cnt (none : Option β) = 0 := rfl

theorem mapGet_mapSet (m : List (κ × β)) (k k' : κ) (v : β) :
    mapGet (mapSet m k' v) k = if k' = k then some v else mapGet m k := by
  induction m with
  | nil =>
    by_cases h : k' = k <;> simp [mapSet, mapGet, h]
  | cons e rest ih =>
    rw [mapSet]
    by_cases he : e.1 = k'
    · simp only [he, if_pos rfl]
      by_cases h : k' = k <;> simp [mapGet, h, he]
    · rw [if_neg he, mapGet]
      by_cases hek : e.1 = k
      · have : ¬ k' = k := fun hk => he (hk ▸ hek)
        simp [mapGet, hek, this]
      · simp only [if_neg hek]
        rw [ih, mapGet, if_neg hek]

theorem sumCnt_mapSet_bump (cnt : β → Nat) (bump : Option β → Contract → β)
    (hb : ∀ w c, cnt (bump w c) = cntOpt cnt w + 1)
    (m : List (κ × β)) (k : κ) (c : Contract) :
    sumCnt cnt (mapSet m k (bump (mapGet m k) c)) = sumCnt cnt m + 1 := by
  induction m with
  | nil => simp [mapSet, mapGet, sumCnt, hb]
  | cons e rest ih =>
    rw [mapSet]
    by_cases he : e.1 = k
    · rw [if_pos he]
      simp only [sumCnt, List.map_cons, List.sum_cons, mapGet, if_pos he, hb, cntOpt_some]
      omega
    · rw [if_neg he]
      simp only [sumCnt, List.map_cons, List.sum_cons, mapGet, if_neg he] at *
      rw [ih]
      omega

theorem getCnt_mapSet_bump (cnt : β → Nat) (bump : Option β → Contract → β)
    (hb : ∀ w c, cnt (bump w c) = cntOpt cnt w + 1)
    (m : List (κ × β)) (k k' : κ) (c : Contract) :
    getCnt cnt (mapSet m k' (bump (mapGet m k') c)) k
      = getCnt cnt m k + (if k' = k then 1 else 0) := by
  rw [getCnt, mapGet_mapSet]
  by_cases h : k' = k
  · subst h
    rw [if_pos rfl, if_pos rfl, cntOpt_some, hb, getCnt]
  · rw [if_neg h, if_neg h, getCnt, Nat.add_zero]

theorem foldl_aggStep_sumCnt (key : Contract → Option κ) (bump : Option β → Contract → β)
    (cnt : β → Nat) (hb : ∀ w c, cnt (bump w c) = cntOpt cnt w + 1) :
    ∀ (l : List Contract) (m : List (κ × β)),
      sumCnt cnt (l.foldl (aggStep key bump) m)
        = sumCnt cnt m + l.countP (fun c => (key c).isSome) := by
  intro l
  induction l with
  | nil => intro m; simp
  | cons c cs ih =>
    intro m
    rw [List.foldl_cons, ih, List.countP_cons]
    rw [aggStep]
    cases h : key c with
    | none => simp [h]
    | some k =>
      rw [sumCnt_mapSet_bump cnt bump hb]
      simp [h]
      omega

theorem foldl_aggStep_getCnt (key : Contract → Option κ) (bump : Option β → Contract → β)
    (cnt : β → Nat) (hb : ∀ w c, cnt (bump w c) = cntOpt cnt w + 1) :
    ∀ (l : List Contract) (m : List (κ × β)) (k : κ),
      getCnt cnt (l.foldl (aggStep key bump) m) k
        = getCnt cnt m k + l.countP (fun c => key c == some k) := by
  intro l
  induction l with
  | nil => intro m k; simp
  | cons c cs ih =>
    intro m k
    rw [List.foldl_cons, ih, List.countP_cons]
    rw [aggStep]
    cases h : key c with
    | none => simp [h]
    | some k2 =>
      rw [getCnt_mapSet_bump cnt bump hb]
      by_cases hk : k2 = k
      · subst hk
        simp [h]
        omega
      · simp [h, hk]

theorem mem_keys_mapSet (m : List (κ × β)) (k k' : κ) (v : β) :
    k' ∈ (mapSet m k v).map Prod.fst ↔ k' ∈ m.map Prod.fst ∨ k' = k := by
  induction m with
  | nil => simp [mapSet]
  | cons e rest ih =>
    rw [mapSet]
    by_cases he : e.1 = k
    · rw [if_pos he]
      simp [he]
      tauto
    · rw [if_neg he]
      simp only [List.map_cons, List.mem_cons, ih]
      tauto

theorem nodup_keys_mapSet (m : List (κ × β)) (k : κ) (v : β)
    (h : (m.map Prod.fst).Nodup) : ((mapSet m k v).map Prod.fst).Nodup := by
  induction m with
  | nil => simp [mapSet]
  | cons e rest ih =>
    rw [mapSet]
    by_cases he : e.1 = k
    · rw [if_pos he]
      simp only [List.map_cons, List.nodup_cons] at *
      exact ⟨fun hk => h.1 (he ▸ hk), h.2⟩
    · rw [if_neg he]
      simp only [List.map_cons, List.nodup_cons] at *
      refine ⟨fun hk => ?_, ih h.2⟩
      rcases (mem_keys_mapSet rest k e.1 v).mp hk with hmem | heq
      · exact h.1 hmem
      · exact he heq

theorem nodup_keys_foldl_aggStep (key : Contract → Option κ) (bump : Option β → Contract → β) :
    ∀ (l : List Contract) (m : List (κ × β)),
      (m.map Prod.fst).Nodup → ((l.foldl (aggStep key bump) m).map Prod.fst).Nodup := by
  intro l
  induction l with
  | nil => intro m hm; exact hm
  | cons c cs ih =>
    intro m hm
    rw [List.foldl_cons]
    refine ih _ ?_
    rw [aggStep]
    cases key c with
    | none => exact hm
    | some k => exact nodup_keys_mapSet m k _ hm

theorem mapGet_of_mem_nodup (m : List (κ × β)) (e : κ × β)
    (hnd : (m.map Prod.fst).Nodup) (he : e ∈ m) : mapGet m e.1 = some e.2 := by
  induction m with
  | nil => cases he
  | cons f rest ih =>
    simp only [List.map_cons, List.nodup_cons] at hnd
    rcases List.mem_cons.mp he with heq | hrest
    · subst heq
      rw [mapGet, if_pos rfl]
    · rw [mapGet]
      have hne : ¬ f.1 = e.1 := by
        intro hk
        exact hnd.1 (hk ▸ List.mem_map_of_mem Prod.fst hrest)
      rw [if_neg hne]
      exact ih hnd.2 hrest

/-- Every entry of the aggregation loop counts exactly the records whose key
hits the entry's key. -/
theorem aggLoop_entry_cnt (key : Contract → Option κ) (bump : Option β → Contract → β)
    (cnt : β → Nat) (hb : ∀ w c, cnt (bump w c) = cntOpt cnt w + 1)
    (l : List Contract) (e : κ × β) (he : e ∈ aggLoop key bump l) :
    cnt e.2 = l.countP (fun c => key c == some e.1) := by
  have he2 : e ∈ l.foldl (aggStep key bump) [] := he
  have hnd := nodup_keys_foldl_aggStep key bump l ([] : List (κ × β)) (by simp)
  have hget := mapGet_of_mem_nodup (l.foldl (aggStep key bump) []) e hnd he2
  have hcount := foldl_aggStep_getCnt key bump cnt hb l [] e.1
  simp only [getCnt] at hcount
  rw [hget] at hcount
  simpa [mapGet] using hcount

/-- The grand total of entry counts equals the number of records with a
present key. -/
theorem aggLoop_sumCnt (key : Contract → Option κ) (bump : Option β → Contract → β)
    (cnt : β → Nat) (hb : ∀ w c, cnt (bump w c) = cntOpt cnt w + 1) (l : List Contract) :
    sumCnt cnt (aggLoop key bump l) = l.countP (fun c => (key c).isSome) := by
  simpa [sumCnt] using foldl_aggStep_sumCnt key bump cnt hb l []

/-- Records whose key is absent do not contribute: the loop ignores them. -/
theorem aggLoop_filter_isSome (key : Contract → Option κ) (bump : Option β → Contract → β)
    (l : List Contract) :
    aggLoop key bump l = aggLoop key bump (l.filter fun c => (key c).isSome) := by
  rw [aggLoop, aggLoop]
  have main : ∀ (l : List Contract) (m : List (κ × β)),
      l.foldl (aggStep key bump) m
        = (l.filter fun c => (key c).isSome).foldl (aggStep key bump) m := by
    intro l
    induction l with
    | nil => intro m; rfl
    | cons c cs ih =>
      intro m
      rw [List.foldl_cons, List.filter_cons]
      cases h : key c with
      | none =>
        simp only [h, Option.isSome_none, Bool.false_eq_true, if_false]
        rw [ih, aggStep, h]
      | some k =>
        simp only [h, Option.isSome_some, if_true]
        rw [List.foldl_cons, ih]
  exact main l []

end AggCounting

/-! ### Pagination coverage (claim C8 machinery) -/

theorem paginatedContracts_one (ps : Nat) (l : List α) :
    paginatedContracts l 1 ps = l.take ps := by
  simp [paginatedContracts, jsSlice]

theorem paginatedContracts_succ_succ (l : List α) (i ps : Nat) :
    paginatedContracts l (i + 2) ps = paginatedContracts (l.drop ps) (i + 1) ps := by
  have h12 : i + 2 - 1 = i + 1 := rfl
  have h11 : i + 1 - 1 = i := rfl
  simp only [paginatedContracts, jsSlice, h12, h11, Nat.add_sub_cancel_left]
  rw [List.drop_drop]
  congr 1
  ring_nf

theorem flatten_paginate (ps : Nat) :
    ∀ (n : Nat) (l : List α), l.length ≤ n * ps →
      (((List.range n).map fun i => paginatedContracts l (i + 1) ps).flatten) = l := by
  intro n
  induction n with
  | zero =>
    intro l hl
    simp only [Nat.zero_mul, Nat.le_zero] at hl
    simp [List.eq_nil_of_length_eq_zero hl]
  | succ n ih =>
    intro l hl
    rw [List.range_succ_eq_map, List.map_cons, List.map_map, List.flatten_cons]
    have hfun : ((fun i => paginatedContracts l (i + 1) ps) ∘ Nat.succ)
        = fun i => paginatedContracts (l.drop ps) (i + 1) ps := by
      funext i
      show paginatedContracts l (i + 1 + 1) ps = _
      exact paginatedContracts_succ_succ l i ps
    rw [hfun, paginatedContracts_one]
    have hlen : (l.drop ps).length ≤ n * ps := by
      rw [List.length_drop]
      have : (n + 1) * ps = n * ps + ps := by ring
      omega
    rw [ih (l.drop ps) hlen, List.take_append_drop]

theorem length_le_totalPages_mul (len ps : Nat) (hps : 0 < ps) :
    len ≤ totalPagesOf len ps * ps := by
  rw [totalPagesOf]
  rcases Nat.eq_zero_or_pos len with h0 | hpos
  · simp [h0]
  · have h1 : len + ps - 1 = (len - 1) + ps := by omega
    rw [h1, Nat.add_div_right _ hps]
    have h2 := Nat.div_add_mod (len - 1) ps
    have h3 : (len - 1) % ps < ps := Nat.mod_lt _ hps
    set q := (len - 1) / ps with hq
    set r := (len - 1) % ps with hr
    have e0 : len = ps * q + r + 1 := by rw [h2]; omega
    have e2 : (q + 1) * ps = ps * q + ps := by ring
    rw [e2]
    omega

/-! ### Claim C1 -/

/-- C1 (amended): with a non-empty keyword list, the TABLE keyword stage keeps
a record iff EVERY keyword occurs case-insensitively in its searchable text,
but the ANALYTICS keyword stage keeps a record iff AT LEAST ONE keyword occurs
in its (different) searchable text — the two code paths do not share the
AND semantics the claim asserts. -/
theorem claim1_keyword_semantics (filters : ContractFilters) (contracts : List Contract)
    (c : Contract) (hkw : 0 < filters.keywords.length) :
    (c ∈ filterStageKeywords filters contracts ↔
      c ∈ contracts ∧ ∀ kw ∈ filters.keywords, jsIncludes (tableSearchText c) (jsToLower kw) = true)
    ∧ (c ∈ aFilterStageKeywords filters contracts ↔
      c ∈ contracts ∧ ∃ kw ∈ filters.keywords,
        jsIncludes (analyticsSearchText c) (jsToLower kw) = true) := by
  constructor
  · rw [filterStageKeywords, if_pos hkw, List.mem_filter]
    simp [List.all_eq_true]
  · rw [aFilterStageKeywords, if_pos hkw, List.mem_filter]
    simp [List.any_eq_true]

/-- C1 witness: the amended statement at a concrete record and keyword list. -/
theorem claim1_keyword_semantics_witness :
    (rRoadEx ∈ filterStageKeywords kwFiltersEx [rRoadEx] ↔
      rRoadEx ∈ [rRoadEx] ∧ ∀ kw ∈ kwFiltersEx.keywords,
        jsIncludes (tableSearchText rRoadEx) (jsToLower kw) = true)
    ∧ (rRoadEx ∈ aFilterStageKeywords kwFiltersEx [rRoadEx] ↔
      rRoadEx ∈ [rRoadEx] ∧ ∃ kw ∈ kwFiltersEx.keywords,
        jsIncludes (analyticsSearchText rRoadEx) (jsToLower kw) = true) :=
  claim1_keyword_semantics kwFiltersEx [rRoadEx] rRoadEx (by decide)

/-- C1 counterexample: the record "road" survives the analytics keyword
filter for the keyword list ["road", "bridge"] although the keyword "bridge"
does not occur in its searchable text — the claimed every-keyword semantics
fails on the analytics path. -/
theorem claim1_counterexample :
    rRoadEx ∈ aFilterStageKeywords kwFiltersEx [rRoadEx]
    ∧ "bridge" ∈ kwFiltersEx.keywords
    ∧ jsIncludes (analyticsSearchText rRoadEx) (jsToLower "bridge") = false := by
  decide

/-! ### Claim C2 -/

theorem drillDown_NCRCompleted_eq_filter (contracts : List Contract) :
    drillDownContracts true contracts breadcrumbsNCRCompleted
      = contracts.filter fun c => (c.region == "NCR") && (c.status == "Completed") := by
  rw [drillDownContracts]
  simp only [breadcrumbsNCRCompleted, Bool.not_true, Bool.false_or, List.length_cons,
    List.length_nil]
  rw [if_neg (by decide)]
  refine List.filter_congr fun c _ => ?_
  simp [matchesBreadcrumb]

theorem tableFilter_NCRCompleted_eq_filter (contracts : List Contract) :
    applyTableFilters specNCRCompleted contracts
      = contracts.filter fun c =>
          (["Completed"].contains c.status)
          && (jsIncludes (jsToLower c.region) (jsToLower "NCR")) := by
  simp only [applyTableFilters, filterStageDateRange, filterStageValueRange, filterStageMaxCost,
    filterStageMinCost, filterStageKeywords, filterStageFunds, filterStageYears,
    filterStageStatuses, filterStageContractors, filterStageOffices, filterStageRegions,
    specNCRCompleted, emptyFilters, List.length_cons, List.length_nil, Nat.lt_irrefl,
    Nat.zero_lt_succ, if_true, if_false, lt_self_iff_false]
  rw [List.filter_filter]
  refine List.filter_congr fun c _ => ?_
  simp only [List.any_cons, List.any_nil, Bool.or_false]

/-- C2 (amended): the drill-down subset for breadcrumbs
[region=NCR, status=Completed] is always a sublist of the filter-engine
subset for {regions:["NCR"], statuses:["Completed"]}, and the two are equal
whenever no record's region strictly contains "ncr" case-insensitively
(the engine matches regions by case-insensitive substring, the drill-down
by exact equality). -/
theorem claim2_drilldown_refines_filter (contracts : List Contract) :
    (drillDownContracts true contracts breadcrumbsNCRCompleted).Sublist
      (applyTableFilters specNCRCompleted contracts)
    ∧ ((∀ c ∈ contracts,
          jsIncludes (jsToLower c.region) (jsToLower "NCR") = true → c.region = "NCR") →
        drillDownContracts true contracts breadcrumbsNCRCompleted
          = applyTableFilters specNCRCompleted contracts) := by
  have hdd := drillDown_NCRCompleted_eq_filter contracts
  have htf := tableFilter_NCRCompleted_eq_filter contracts
  constructor
  · rw [hdd, htf]
    refine List.monotone_filter_right contracts fun a ha => ?_
    simp only [Bool.and_eq_true, beq_iff_eq] at ha
    obtain ⟨hr, hs⟩ := ha
    simp only [Bool.and_eq_true]
    constructor
    · simp [hs]
    · rw [hr]
      decide
  · intro H
    rw [hdd, htf]
    refine List.filter_congr fun c hc => ?_
    have hstat : (c.status == "Completed") = (["Completed"].contains c.status) := by
      rw [Bool.eq_iff_iff]
      simp [List.contains_cons, beq_iff_eq]
    have hreg : (c.region == "NCR") = jsIncludes (jsToLower c.region) (jsToLower "NCR") := by
      by_cases hr : c.region = "NCR"
      · rw [hr]
        decide
      · cases hj : jsIncludes (jsToLower c.region) (jsToLower "NCR") with
        | true => exact absurd (H c hc hj) hr
        | false => simp [hr]
    rw [← hstat, ← hreg]
    exact Bool.and_comm _ _

/-- C2 witness: on a list whose only region value is exactly "NCR", the
drill-down subset and the filter-engine subset coincide. -/
theorem claim2_witness :
    drillDownContracts true [cNCREx] breadcrumbsNCRCompleted
      = applyTableFilters specNCRCompleted [cNCREx] :=
  (claim2_drilldown_refines_filter [cNCREx]).2 (by decide)

/-- C2 counterexample: for the record with region "NCRX" and status
"Completed", the filter engine keeps the record (substring region match)
while the drill-down path rejects it (exact equality), so the claimed
set equality fails. -/
theorem claim2_counterexample :
    drillDownContracts true [cNCRX] breadcrumbsNCRCompleted
      ≠ applyTableFilters specNCRCompleted [cNCRX] := by
  decide

/-! ### Claim C3 -/

/-- C3: for every record list, sort field and direction, every record whose
sort-field value is null appears after every record with a non-null value
(pairwise: a null record is never followed by a non-null one); and sorting the
scenario costs [100, null, 50] descending yields [100, 50, null]. -/
theorem claim3_nulls_sort_last :
    (∀ (l : List Contract) (sc : ContractSortConfig), NullsLast sc.field (sortContracts sc l))
    ∧ sortContracts { field := .cost_php, direction := .desc } [r100Ex, rnullEx, r50Ex]
        = [r100Ex, r50Ex, rnullEx] := by
  constructor
  · intro l sc
    exact nullsLast_jsStableSort sc l
  · have c1 : cmpContracts { field := .cost_php, direction := .desc } rnullEx r100Ex = 1 := by
      simp [cmpContracts, sortValue, rnullEx, r100Ex, baseContract]
    have c2 : cmpContracts { field := .cost_php, direction := .desc } r50Ex r100Ex = 50 := by
      norm_num [cmpContracts, sortValue, r50Ex, r100Ex, baseContract]
      decide
    have c3 : cmpContracts { field := .cost_php, direction := .desc } r50Ex rnullEx = -1 := by
      simp [cmpContracts, sortValue, r50Ex, rnullEx, baseContract]
    norm_num [sortContracts, jsStableSort, insertSorted, c1, c2, c3]

/-- C3 witness: the universal statement applied at the scenario list. -/
theorem claim3_nulls_sort_last_witness :
    NullsLast SortField.cost_php
      (sortContracts { field := .cost_php, direction := .desc } [r100Ex, rnullEx, r50Ex]) :=
  claim3_nulls_sort_last.1 [r100Ex, rnullEx, r50Ex] { field := .cost_php, direction := .desc }

/-! ### Claim C4 -/

/-- C4: both filter pipelines are idempotent — applying the same spec twice
returns the same list as applying it once, for the table path and for the
analytics path. -/
theorem claim4_filter_idempotent (filters : ContractFilters) (contracts : List Contract) :
    applyTableFilters filters (applyTableFilters filters contracts)
        = applyTableFilters filters contracts
    ∧ analyticsFilteredContracts (analyticsFilteredContracts contracts filters) filters
        = analyticsFilteredContracts contracts filters := by
  constructor
  · exact (isFilterMap_applyTableFilters filters).idem contracts
  · obtain ⟨p, hp⟩ := isFilterMap_aFilterStages filters
    have h1 := hp contracts
    have h2 := hp (analyticsFilteredContracts contracts filters)
    simp only at h1 h2
    rw [h2, h1, List.filter_filter]
    exact List.filter_congr fun x _ => Bool.and_self (p x)

/-! ### Claim C5 -/

theorem entityBump_cnt (w : Option (Rat × Nat)) (c : Contract) :
    (entityBump w c).2 = cntOpt (fun v => v.2) w + 1 := by
  cases w <;> simp [entityBump]

theorem sum_counts_finalizeEntities (m : List (String × (Rat × Nat))) :
    ((finalizeEntities m).map (fun g => g.count)).sum = sumCnt (fun v => v.2) m := by
  rw [finalizeEntities]
  rw [List.Perm.sum_eq (List.Perm.map _ (jsStableSort_perm _ _))]
  rw [List.map_map]
  rfl

theorem aggregateByRegion_group_count (contracts : List Contract) (g : AggregatedEntity)
    (hg : g ∈ aggregateByRegion contracts) :
    g.count = contracts.countP fun c => regionKey c == g.name := by
  rw [aggregateByRegion, finalizeEntities, mem_jsStableSort] at hg
  obtain ⟨e, he, rfl⟩ := List.mem_map.mp hg
  have hcnt := aggLoop_entry_cnt (fun contract => some (regionKey contract)) entityBump
    (fun v => v.2) entityBump_cnt contracts e he
  have hsome : ∀ a b : String, ((some a == some b)) = (a == b) := fun a b => rfl
  simp only [hsome] at hcnt
  simpa using hcnt

/-- C5: region aggregation is a strict partition — the group counts sum to
the record count, each group's count is the number of records whose region
key equals the group name, records with an empty (falsy) region get the
literal "Unknown" key, and (contrast) the fan-out contractor aggregation can
count one record twice. -/
theorem claim5_region_count_conservation (contracts : List Contract) :
    ((aggregateByRegion contracts).map (fun g => g.count)).sum = contracts.length
    ∧ (∀ g ∈ aggregateByRegion contracts,
        g.count = contracts.countP fun c => regionKey c == g.name)
    ∧ (∀ c ∈ contracts, c.region = "" → regionKey c = "Unknown")
    ∧ ((aggregateByContractorMap [cSlot2Ex]).map (fun e => e.2.2)).sum = 2 := by
  refine ⟨?_, ?_, ?_, ?_⟩
  · rw [aggregateByRegion, sum_counts_finalizeEntities]
    rw [aggLoop_sumCnt _ _ _ entityBump_cnt]
    simp
  · exact fun g hg => aggregateByRegion_group_count contracts g hg
  · intro c _ h
    rw [regionKey, jsStrOr, h]
    decide
  · decide

/-- C5 witness: the per-group equation at the singleton list whose record has
region "NCR" and null cost. -/
theorem claim5_witness :
    ({ name := "NCR", total_value := 0, count := 1, avg_value := 0 } : AggregatedEntity).count
      = [rnullEx].countP (fun c => regionKey c
          == ({ name := "NCR", total_value := 0, count := 1, avg_value := 0 } : AggregatedEntity).name) :=
  (claim5_region_count_conservation [rnullEx]).2.1 _ (by
    simp [aggregateByRegion, aggLoop, aggStep, finalizeEntities, jsStableSort, insertSorted,
      mapGet, mapSet, regionKey, jsStrOr, entityBump, jsRatOr, rnullEx, baseContract]
    decide)

/-! ### Claim C6 -/

theorem monthKey_isSome (c : Contract) : (monthKey c).isSome = hasParseableDate c := by
  rw [monthKey, hasParseableDate]
  cases h : c.effectivity_date with
  | none => simp [jsTruthyStr]
  | some s =>
    by_cases hs : s.isEmpty
    · have hs0 : s = "" := (String.isEmpty_iff _).mp hs
      subst hs0
      simp [jsTruthyStr]
      decide
    · simp [jsTruthyStr, hs]

theorem quarterParts_isSome (c : Contract) : (quarterParts c).isSome = hasParseableDate c := by
  rw [quarterParts, hasParseableDate]
  cases h : c.effectivity_date with
  | none => simp [jsTruthyStr]
  | some s =>
    by_cases hs : s.isEmpty
    · have hs0 : s = "" := (String.isEmpty_iff _).mp hs
      subst hs0
      simp [jsTruthyStr]
      decide
    · simp [jsTruthyStr, hs]

theorem quarterKey_isSome (c : Contract) : (quarterKey c).isSome = hasParseableDate c := by
  rw [← quarterParts_isSome c, quarterKey]
  cases quarterParts c <;> rfl

theorem quarterBump_cnt (w : Option (Int × Nat × Rat × Nat)) (c : Contract) :
    (quarterBump w c).2.2.2 = cntOpt (fun v => v.2.2.2) w + 1 := by
  cases w <;> simp [quarterBump]

theorem sum_counts_aggregateByMonth (contracts : List Contract) :
    ((aggregateByMonth contracts).map (fun g => g.count)).sum
      = sumCnt (fun v => v.2) (aggLoop monthKey entityBump contracts) := by
  rw [aggregateByMonth]
  rw [List.Perm.sum_eq (List.Perm.map _ (jsStableSort_perm _ _))]
  rw [List.map_map]
  rfl

theorem sum_counts_aggregateByQuarter (contracts : List Contract) :
    ((aggregateByQuarter contracts).map (fun g => g.count)).sum
      = sumCnt (fun v => v.2.2.2) (aggLoop quarterKey quarterBump contracts) := by
  rw [aggregateByQuarter]
  rw [List.Perm.sum_eq (List.Perm.map _ (jsStableSort_perm _ _))]
  rw [List.map_map]
  rfl

/-- C6: month and quarter bucketing silently exclude records without a
parseable `effectivity_date`: the bucket counts sum to the number of records
with a parseable date, and removing the unparseable records from the input
leaves both aggregates unchanged (no "Unknown" bucket ever receives them). -/
theorem claim6_month_quarter_exclusion (contracts : List Contract) :
    ((aggregateByMonth contracts).map (fun g => g.count)).sum
        = contracts.countP hasParseableDate
    ∧ ((aggregateByQuarter contracts).map (fun g => g.count)).sum
        = contracts.countP hasParseableDate
    ∧ aggregateByMonth contracts
        = aggregateByMonth (contracts.filter fun c => hasParseableDate c)
    ∧ aggregateByQuarter contracts
        = aggregateByQuarter (contracts.filter fun c => hasParseableDate c) := by
  have hmf : (fun c => (monthKey c).isSome) = hasParseableDate := funext monthKey_isSome
  have hqf : (fun c => (quarterKey c).isSome) = hasParseableDate := funext quarterKey_isSome
  refine ⟨?_, ?_, ?_, ?_⟩
  · rw [sum_counts_aggregateByMonth, aggLoop_sumCnt _ _ _ entityBump_cnt, hmf]
  · rw [sum_counts_aggregateByQuarter, aggLoop_sumCnt _ _ _ quarterBump_cnt, hqf]
  · rw [aggregateByMonth, aggregateByMonth]
    rw [aggLoop_filter_isSome monthKey entityBump contracts, hmf]
  · rw [aggregateByQuarter, aggregateByQuarter]
    rw [aggLoop_filter_isSome quarterKey quarterBump contracts, hqf]

/-! ### Claim C7 -/

theorem mem_of_mem_mapSet {κ β : Type} [DecidableEq κ] (m : List (κ × β)) (k : κ) (v : β)
    (e : κ × β) (he : e ∈ mapSet m k v) : e ∈ m ∨ e = (k, v) := by
  induction m with
  | nil =>
    right
    simpa [mapSet] using he
  | cons f rest ih =>
    rw [mapSet] at he
    by_cases hf : f.1 = k
    · rw [if_pos hf] at he
      rcases List.mem_cons.mp he with heq | hrest
      · right; exact heq
      · left; exact List.mem_cons_of_mem f hrest
    · rw [if_neg hf] at he
      rcases List.mem_cons.mp he with heq | hrest
      · left; exact heq ▸ List.mem_cons_self f rest
      · rcases ih hrest with hm | hkv
        · left; exact List.mem_cons_of_mem f hm
        · right; exact hkv

theorem foldl_aggStep_cnt_pos {κ β : Type} [DecidableEq κ] (key : Contract → Option κ)
    (bump : Option β → Contract → β) (cnt : β → Nat)
    (hb : ∀ w c, cnt (bump w c) = cntOpt cnt w + 1) :
    ∀ (l : List Contract) (m : List (κ × β)), (∀ e ∈ m, 1 ≤ cnt e.2) →
      ∀ e ∈ l.foldl (aggStep key bump) m, 1 ≤ cnt e.2 := by
  intro l
  induction l with
  | nil => intro m hm; exact hm
  | cons c cs ih =>
    intro m hm
    rw [List.foldl_cons]
    refine ih _ ?_
    rw [aggStep]
    cases key c with
    | none => exact hm
    | some k =>
      intro e he
      rcases mem_of_mem_mapSet _ _ _ e he with hmem | hkv
      · exact hm e hmem
      · rw [hkv]
        rw [hb]
        omega

theorem aggLoop_cnt_pos {κ β : Type} [DecidableEq κ] (key : Contract → Option κ)
    (bump : Option β → Contract → β) (cnt : β → Nat)
    (hb : ∀ w c, cnt (bump w c) = cntOpt cnt w + 1)
    (l : List Contract) (e : κ × β) (he : e ∈ aggLoop key bump l) : 1 ≤ cnt e.2 :=
  foldl_aggStep_cnt_pos key bump cnt hb l [] (by simp) e he

theorem aggregateByContractorMap_cnt_pos (contracts : List Contract)
    (e : String × (Rat × Nat)) (he : e ∈ aggregateByContractorMap contracts) :
    1 ≤ e.2.2 := by
  have inner : ∀ (names : List String) (c : Contract) (m : List (String × (Rat × Nat))),
      (∀ e2 ∈ m, 1 ≤ e2.2.2) →
      ∀ e2 ∈ names.foldl
        (fun map contractor =>
          if !contractor.isEmpty then
            mapSet map contractor (entityBump (mapGet map contractor) c)
          else map) m, 1 ≤ e2.2.2 := by
    intro names
    induction names with
    | nil => intro c m hm; exact hm
    | cons nm rest ih =>
      intro c m hm
      rw [List.foldl_cons]
      refine ih c _ ?_
      by_cases hnm : nm.isEmpty
      · simp only [hnm, Bool.not_true, Bool.false_eq_true, if_false]
        exact hm
      · simp only [Bool.not_eq_true', hnm, if_pos]
        intro e2 he2
        rcases mem_of_mem_mapSet _ _ _ e2 he2 with hmem | hkv
        · exact hm e2 hmem
        · rw [hkv, entityBump_cnt]
          omega
  have outer : ∀ (l : List Contract) (m : List (String × (Rat × Nat))),
      (∀ e2 ∈ m, 1 ≤ e2.2.2) →
      ∀ e2 ∈ l.foldl
        (fun map contract =>
          let contractors := getContractorNames contract
          contractors.foldl
            (fun map contractor =>
              if !contractor.isEmpty then
                mapSet map contractor (entityBump (mapGet map contractor) contract)
              else map) map) m, 1 ≤ e2.2.2 := by
    intro l
    induction l with
    | nil => intro m hm; exact hm
    | cons c cs ih =>
      intro m hm
      rw [List.foldl_cons]
      exact ih _ (inner (getContractorNames c) c m hm)
  exact outer contracts [] (by simp) e he

theorem mem_finalizeEntities (m : List (String × (Rat × Nat))) (g : AggregatedEntity)
    (hg : g ∈ finalizeEntities m) :
    ∃ e ∈ m, g = { name := e.1, total_value := e.2.1, count := e.2.2
                   avg_value := e.2.1 / max 1 (e.2.2 : Rat) } := by
  rw [finalizeEntities, mem_jsStableSort] at hg
  obtain ⟨e, he, hfe⟩ := List.mem_map.mp hg
  exact ⟨e, he, hfe.symm⟩

/-- C7: every group of every dimension aggregation reports
`avg_value = total_value / max(1, count)` and has a strictly positive count
(so the guarded division is never a division by zero), and the top-level
summary reports `avg_value = total_value / count` for a non-empty input and
`0` for an empty one. -/
theorem claim7_avg_guard (contracts : List Contract) :
    (∀ g ∈ aggregateByContractor contracts,
      g.avg_value = g.total_value / max 1 (g.count : Rat) ∧ 0 < g.count)
    ∧ (∀ g ∈ aggregateByRegion contracts,
      g.avg_value = g.total_value / max 1 (g.count : Rat) ∧ 0 < g.count)
    ∧ (∀ g ∈ aggregateByImplementingOffice contracts,
      g.avg_value = g.total_value / max 1 (g.count : Rat) ∧ 0 < g.count)
    ∧ (∀ g ∈ aggregateByStatus contracts,
      g.avg_value = g.total_value / max 1 (g.count : Rat) ∧ 0 < g.count)
    ∧ (∀ g ∈ aggregateBySourceOfFunds contracts,
      g.avg_value = g.total_value / max 1 (g.count : Rat) ∧ 0 < g.count)
    ∧ (∀ g ∈ aggregateByYear contracts,
      g.avg_value = g.total_value / max 1 (g.count : Rat) ∧ 0 < g.count)
    ∧ (∀ g ∈ aggregateByMonth contracts,
      g.avg_value = g.total_value / max 1 (g.count : Rat) ∧ 0 < g.count)
    ∧ (∀ g ∈ aggregateByQuarter contracts,
      g.avg_value = g.total_value / max 1 (g.count : Rat) ∧ 0 < g.count)
    ∧ (∀ s ∈ (getContractsAggregates contracts).summary,
      s.avg_value = if 0 < s.count then s.total_value / (s.count : Rat) else 0) := by
  refine ⟨?_, ?_, ?_, ?_, ?_, ?_, ?_, ?_, ?_⟩
  · intro g hg
    obtain ⟨e, he, rfl⟩ := mem_finalizeEntities (aggregateByContractorMap contracts) g hg
    exact ⟨rfl, aggregateByContractorMap_cnt_pos contracts e he⟩
  · intro g hg
    obtain ⟨e, he, rfl⟩ :=
      mem_finalizeEntities (aggLoop (fun contract => some (regionKey contract)) entityBump contracts) g hg
    exact ⟨rfl, aggLoop_cnt_pos _ entityBump (fun v => v.2) entityBump_cnt contracts e he⟩
  · intro g hg
    obtain ⟨e, he, rfl⟩ := mem_finalizeEntities
      (aggLoop (fun contract => some (jsStrOr contract.implementing_office "Unknown")) entityBump contracts) g hg
    exact ⟨rfl, aggLoop_cnt_pos _ entityBump (fun v => v.2) entityBump_cnt contracts e he⟩
  · intro g hg
    obtain ⟨e, he, rfl⟩ := mem_finalizeEntities
      (aggLoop (fun contract => some (jsStrOr contract.status "Unknown")) entityBump contracts) g hg
    exact ⟨rfl, aggLoop_cnt_pos _ entityBump (fun v => v.2) entityBump_cnt contracts e he⟩
  · intro g hg
    obtain ⟨e, he, rfl⟩ := mem_finalizeEntities
      (aggLoop (fun contract => some (jsStrOr contract.source_of_funds "Unknown")) entityBump contracts) g hg
    exact ⟨rfl, aggLoop_cnt_pos _ entityBump (fun v => v.2) entityBump_cnt contracts e he⟩
  · intro g hg
    rw [aggregateByYear, mem_jsStableSort] at hg
    obtain ⟨e, he, hfe⟩ := List.mem_map.mp hg
    subst hfe
    exact ⟨rfl, aggLoop_cnt_pos _ entityBump (fun v => v.2) entityBump_cnt contracts e he⟩
  · intro g hg
    rw [aggregateByMonth, mem_jsStableSort] at hg
    obtain ⟨e, he, hfe⟩ := List.mem_map.mp hg
    subst hfe
    exact ⟨rfl, aggLoop_cnt_pos _ entityBump (fun v => v.2) entityBump_cnt contracts e he⟩
  · intro g hg
    rw [aggregateByQuarter, mem_jsStableSort] at hg
    obtain ⟨e, he, hfe⟩ := List.mem_map.mp hg
    subst hfe
    exact ⟨rfl, aggLoop_cnt_pos _ quarterBump (fun v => v.2.2.2) quarterBump_cnt contracts e he⟩
  · intro s hs
    rw [getContractsAggregates] at hs
    simp only [List.mem_singleton] at hs
    subst hs
    rfl

/-- C7 witness: the summary branch at the empty input list reports the
explicit zero average. -/
theorem claim7_avg_guard_witness :
    ({ count := 0, total_value := 0, avg_value := 0 } : SummaryRow).avg_value
      = (if 0 < ({ count := 0, total_value := 0, avg_value := 0 } : SummaryRow).count
          then ({ count := 0, total_value := 0, avg_value := 0 } : SummaryRow).total_value
            / (({ count := 0, total_value := 0, avg_value := 0 } : SummaryRow).count : Rat)
          else 0) :=
  (claim7_avg_guard []).2.2.2.2.2.2.2.2 _ (by simp [getContractsAggregates])

/-! ### Claim C8 -/

/-- C8: pagination is the pure window `slice((page-1)*pageSize, page*pageSize)`,
and concatenating pages 1..ceil(length/pageSize) reconstructs the input list
exactly. -/
theorem claim8_pagination {α : Type} (records : List α) (page pageSize : Nat)
    (hps : 0 < pageSize) (hpage : 1 ≤ page) :
    paginatedContracts records page pageSize
        = jsSlice records ((page - 1) * pageSize) (page * pageSize)
    ∧ (((List.range (totalPagesOf records.length pageSize)).map
        fun i => paginatedContracts records (i + 1) pageSize).flatten) = records := by
  constructor
  · obtain ⟨p, rfl⟩ : ∃ p, page = p + 1 := ⟨page - 1, by omega⟩
    rw [paginatedContracts]
    congr 1
    have h1 : p + 1 - 1 = p := rfl
    rw [h1]
    ring
  · exact flatten_paginate pageSize (totalPagesOf records.length pageSize) records
      (length_le_totalPages_mul records.length pageSize hps)

/-- C8 witness: the window equation and full coverage at a concrete
five-element list with page size 2 (three pages: [1,2], [3,4], [5]). -/
theorem claim8_pagination_witness :
    (paginatedContracts [1, 2, 3, 4, 5] 2 2
        = jsSlice [1, 2, 3, 4, 5] ((2 - 1) * 2) (2 * 2))
    ∧ (((List.range (totalPagesOf (([1, 2, 3, 4, 5] : List Nat).length) 2)).map
        fun i => paginatedContracts [1, 2, 3, 4, 5] (i + 1) 2).flatten) = [1, 2, 3, 4, 5] :=
  claim8_pagination [1, 2, 3, 4, 5] 2 2 (by decide) (by decide)

/-! ### Claim C9 -/

/-- C9: a contractor breadcrumb with entity id X selects exactly the records
whose `contractor_id_1` equals X; a record carrying X only in a later slot is
excluded; the name-to-id resolution returns the clicked name unchanged when no
record has it as `contractor_name_1`; and (contrast) the contractor
aggregation map fans the example record out to both of its name slots. -/
theorem claim9_contractor_drilldown (contracts : List Contract) (X : String) :
    drillDownContracts true contracts [{ entityType := .contractor, entityId := X }]
        = contracts.filter (fun c => c.contractor_id_1 == X)
    ∧ (∀ c ∈ contracts, c.contractor_id_1 ≠ X →
        c ∉ drillDownContracts true contracts [{ entityType := .contractor, entityId := X }])
    ∧ (∀ name : String, (∀ c ∈ contracts, c.contractor_name_1 ≠ name) →
        resolveContractorEntityId contracts name = name)
    ∧ drillDownContracts true [cSlot2Ex] [{ entityType := .contractor, entityId := "C-2" }] = []
    ∧ (aggregateByContractorMap [cSlot2Ex]).map Prod.fst = ["Alpha Corp", "Beta Corp"] := by
  have heq : drillDownContracts true contracts [{ entityType := .contractor, entityId := X }]
      = contracts.filter (fun c => c.contractor_id_1 == X) := by
    rw [drillDownContracts]
    simp only [Bool.not_true, List.length_cons, List.length_nil, Nat.succ_ne_zero,
      decide_eq_true_eq, decide_False, Bool.or_false, Bool.false_eq_true, if_false]
    refine List.filter_congr fun c _ => ?_
    simp [matchesBreadcrumb]
  refine ⟨heq, ?_, ?_, by decide, by decide⟩
  · intro c _ hne hmem
    rw [heq, List.mem_filter] at hmem
    exact hne (by simpa using hmem.2)
  · intro name hname
    rw [resolveContractorEntityId]
    have : contracts.find? (fun c => c.contractor_name_1 == name) = none :=
      List.find?_eq_none.mpr fun x hx => by simpa using hname x hx
    rw [this]

/-- C9 witness: the drill-down filter equation and the exclusion of the
slot-2-only record at the concrete id "C-2". -/
theorem claim9_contractor_drilldown_witness :
    cSlot2Ex ∉ drillDownContracts true [cSlot2Ex]
        [{ entityType := .contractor, entityId := "C-2" }] :=
  (claim9_contractor_drilldown [cSlot2Ex] "C-2").2.1 cSlot2Ex (by decide) (by decide)

/-! ### Claim C10 -/

/-- C10: when the (year-)filtered record list feeding the analytics hook is
empty, the hook returns `aggregates = none`, an empty `processedData` and
all-zero `summaryStats`; and `aggregates` is non-none exactly when the
filtered list is non-empty. -/
theorem claim10_empty_analytics (contracts : List Contract) (filters : ContractFilters)
    (dimension : Dimension) (metric : Metric) (yearFilter : Option Int) :
    (yearFilteredContracts contracts filters yearFilter = [] →
      (useContractsAnalytics contracts filters dimension metric yearFilter).aggregates = none
      ∧ (useContractsAnalytics contracts filters dimension metric yearFilter).processedData = []
      ∧ (useContractsAnalytics contracts filters dimension metric yearFilter).summaryStats
          = { totalContracts := 0, totalValue := 0, averageValue := 0 })
    ∧ ((useContractsAnalytics contracts filters dimension metric yearFilter).aggregates.isSome
        ↔ yearFilteredContracts contracts filters yearFilter ≠ []) := by
  by_cases h : yearFilteredContracts contracts filters yearFilter = []
  · constructor
    · intro _
      refine ⟨?_, ?_, ?_⟩ <;> simp [useContractsAnalytics, h]
    · simp [useContractsAnalytics, h]
  · have hlen : ¬ (yearFilteredContracts contracts filters yearFilter).length = 0 := by
      simpa [List.length_eq_zero] using h
    constructor
    · intro h2
      exact absurd h2 h
    · simp [useContractsAnalytics, hlen, h]

/-- C10 witness: the hook at an empty input list returns the null aggregates,
empty processed data and zero summary stats. -/
theorem claim10_empty_analytics_witness :
    (useContractsAnalytics [] emptyFilters .by_contractor .amount none).aggregates = none
    ∧ (useContractsAnalytics [] emptyFilters .by_contractor .amount none).processedData = []
    ∧ (useContractsAnalytics [] emptyFilters .by_contractor .amount none).summaryStats
        = { totalContracts := 0, totalValue := 0, averageValue := 0 } :=
  (claim10_empty_analytics [] emptyFilters .by_contractor .amount none).1 (by decide)
